import Mathlib

/-!
Verification of the NTLM provider (`initiators/ntlm/provider.go`) of the
`msultra/spnego` repository against its design specification.

Byte buffers are modelled as `List Nat` (each element a byte value), machine
integers as `Nat` with explicit `% 2^w` where Go's fixed-width arithmetic
truncates.  The cryptographic primitives from Go's standard library
(`crypto/hmac`, `crypto/md5`, `crypto/rc4`) and the repository helpers that
are not part of the provider file are abstracted into a `CryptoOracle`
record, so every theorem below holds for every implementation of those
primitives (in particular the real one).
-/

deriving instance DecidableEq for Except

namespace Spnego

/-- Little-endian 16-bit encoding (`binary.LittleEndian.PutUint16` after the
Go `uint16(·)` truncation). -/
def le16enc (v : Nat) : List Nat := [v % 256, v / 256 % 256]

/-- Little-endian 32-bit encoding (`binary.LittleEndian.PutUint32` after the
Go `uint32(·)` truncation). -/
def le32enc (v : Nat) : List Nat :=
  [v % 256, v / 256 % 256, v / 65536 % 256, v / 16777216 % 256]

/-- Little-endian 16-bit decoding at index `i` (`binary.LittleEndian.Uint16`). -/
def le16dec (buf : List Nat) (i : Nat) : Nat :=
  buf.getD i 0 + 256 * buf.getD (i + 1) 0

/-- Little-endian 32-bit decoding at index `i` (`binary.LittleEndian.Uint32`). -/
def le32dec (buf : List Nat) (i : Nat) : Nat :=
  buf.getD i 0 + 256 * buf.getD (i + 1) 0 + 65536 * buf.getD (i + 2) 0 +
    16777216 * buf.getD (i + 3) 0

/-- Go slice expression `buf[off : off+len]`. -/
def slice (buf : List Nat) (off len : Nat) : List Nat := (buf.drop off).take len

/-- Go `copy(buf[i:i+v.length], v)` for an in-bounds write: overwrite `buf`
at position `i` with the bytes of `v`. -/
def listWrite (buf : List Nat) (i : Nat) (v : List Nat) : List Nat :=
  buf.take i ++ v ++ buf.drop (i + v.length)

/-- Modelled from the spec: the fixed 8-byte NTLM signature constant
(`Signature` in the repository's constants file, which is not under `src/`);
the ASCII bytes of `NTLMSSP` followed by a zero byte. -/
def Signature : List Nat := [0x4E, 0x54, 0x4C, 0x4D, 0x53, 0x53, 0x50, 0x00]

/-- Modelled from the spec: message type of a NEGOTIATE message. -/
def MessageTypeNtLmNegotiate : Nat := 1

/-- Modelled from the spec: message type of a CHALLENGE message. -/
def MessageTypeNtLmChallenge : Nat := 2

/-- Modelled from the spec: message type of an AUTHENTICATE message. -/
def MessageTypeNtLmAuthenticate : Nat := 3

/-- Modelled from the spec: negotiate-flag bit constants from the
repository's constants file (not under `src/`), with their standard
MS-NLMP values. -/
def NegotiateUnicode : Nat := 0x00000001

/-- Modelled from the spec: see `NegotiateUnicode`. -/
def RequestTarget : Nat := 0x00000004

/-- Modelled from the spec: see `NegotiateUnicode`. -/
def NegotiateSign : Nat := 0x00000010

/-- Modelled from the spec: see `NegotiateUnicode`. -/
def NegotiateNTLM : Nat := 0x00000200

/-- Modelled from the spec: see `NegotiateUnicode`. -/
def NegotiateDomainSupplied : Nat := 0x00001000

/-- Modelled from the spec: see `NegotiateUnicode`. -/
def NegotiateWorkstationSupplied : Nat := 0x00002000

/-- Modelled from the spec: see `NegotiateUnicode`. -/
def NegotiateAlwaysSign : Nat := 0x00008000

/-- Modelled from the spec: see `NegotiateUnicode`. -/
def NegotiateExtendedSecurity : Nat := 0x00080000

/-- Modelled from the spec: see `NegotiateUnicode`. -/
def NegotiateTargetInfo : Nat := 0x00800000

/-- Modelled from the spec: see `NegotiateUnicode`. -/
def NegotiateVersion : Nat := 0x02000000

/-- Modelled from the spec: see `NegotiateUnicode`. -/
def Negotiate128 : Nat := 0x20000000

/-- Modelled from the spec: see `NegotiateUnicode`. -/
def NegotiateKeyExch : Nat := 0x40000000

/-- Modelled from the spec: see `NegotiateUnicode`. -/
def Negotiate56 : Nat := 0x80000000

/-- Modelled from the spec: the fixed 8-byte client version blob
(`ClientVersion` in the constants file, not under `src/`); its concrete
contents are never inspected by the provider, so it is modelled as zeros. -/
def ClientVersion : List Nat := List.replicate 8 0

/-- Modelled from the spec: the UTF-16LE string encoder (`ToUnicode`, a
helper outside `src/`; the spec calls it a trivial pure helper): every
character becomes its 2-byte little-endian UTF-16 code unit (basic
multilingual plane). -/
def ToUnicode (s : String) : List Nat :=
  (s.data.map (fun c => le16enc c.toNat)).flatten

/-- Go's `strings.ToUpper` (standard library), modelled as character-wise
uppercasing. -/
def goToUpper (s : String) : String := String.mk (s.data.map Char.toUpper)

/-- The `NtlmProvider` session record (`provider.go` lines 14-92); Go zero
values are the field defaults.  `rc4.Cipher` handles are modelled as the
cipher's remaining keystream prefix, `nil` pointers as `none`. -/
structure NtlmProvider where
  User : String := ""
  Password : String := ""
  Hash : List Nat := []
  Domain : String := ""
  Workstation : String := ""
  NegotiateFlags : Nat := 0
  SessionBaseKey : List Nat := []
  KeyExchangeKey : List Nat := []
  RandomSessionKey : List Nat := []
  ExportedSessionKey : List Nat := []
  ClientSigningKey : List Nat := []
  ServerSigningKey : List Nat := []
  ServerHandle : Option (List Nat) := none
  ClientHandle : Option (List Nat) := none
  SequenceNumber : Nat := 0
  ServerChallenge : List Nat := []
  ClientChallenge : List Nat := []
  NegotiateMessage : List Nat := []
  AuthenticateMessage : List Nat := []
  TargetInfo : Option (List (Nat × List Nat)) := none
deriving DecidableEq

/-- The default capability set chosen by `InitSecContext` when the caller
leaves `NegotiateFlags` at zero (`provider.go` lines 110-113). -/
def DefaultClientFlags : Nat :=
  Negotiate56 ||| Negotiate128 ||| NegotiateKeyExch ||| NegotiateTargetInfo |||
  NegotiateExtendedSecurity ||| NegotiateAlwaysSign ||| NegotiateNTLM |||
  NegotiateSign ||| RequestTarget ||| NegotiateUnicode ||| NegotiateVersion

/-- `InitSecContext` (`provider.go` lines 100-167): builds the NEGOTIATE
message.  The Go code writes disjoint fields at fixed offsets into a fresh
40-byte zero buffer, which is the concatenation written here; it returns the
message and never fails (its error result is always `nil`). -/
def InitSecContext (n : NtlmProvider) : NtlmProvider × List Nat :=
  let flags0 := if n.NegotiateFlags = 0 then DefaultClientFlags else n.NegotiateFlags
  let flags1 := if n.Domain ≠ "" then flags0 ||| NegotiateDomainSupplied else flags0
  let flags := if n.Workstation ≠ "" then flags1 ||| NegotiateWorkstationSupplied else flags1
  let domBytes := ToUnicode n.Domain
  let wksBytes := ToUnicode n.Workstation
  let domainFields : List Nat :=
    if n.Domain ≠ "" then le16enc domBytes.length ++ le16enc domBytes.length ++ le32enc 40
    else List.replicate 8 0
  let wksOffset : Nat := if n.Domain ≠ "" then 40 + domBytes.length else 40
  let wksFields : List Nat :=
    if n.Workstation ≠ "" then
      le16enc wksBytes.length ++ le16enc wksBytes.length ++ le32enc wksOffset
    else List.replicate 8 0
  let toAppend :=
    (if n.Domain ≠ "" then domBytes else []) ++ (if n.Workstation ≠ "" then wksBytes else [])
  let msg := Signature ++ le32enc MessageTypeNtLmNegotiate ++ le32enc flags ++
    domainFields ++ wksFields ++ ClientVersion ++ toAppend
  ({ n with NegotiateFlags := flags, NegotiateMessage := msg }, msg)

/-- Modelled from the spec: `extractFields` (repository codec helper, not
under `src/`).  A field descriptor is `len:u16, maxlen:u16, offset:u32`
(§4.1); decoding validates `offset + len ≤ bufferLength` and fails with a
bounds error otherwise, returning the addressed payload slice. -/
def extractFields (desc : List Nat) (buf : List Nat) : Except String (List Nat) :=
  let len := le16dec desc 0
  let off := le32dec desc 4
  if off + len ≤ buf.length then .ok (slice buf off len) else .error "invalid field bounds"

/-- Modelled from the spec: `NewAvPairs` (§4.2), parsing the TLV-encoded
target-info list.  Each entry is `type(2) length(2) value(length)`; the list
ends at a zero-type, zero-length entry; a declared length reading past the
slice end is an error.  Recursion is fueled by the buffer length (each step
consumes at least four bytes). -/
def NewAvPairsAux : Nat → List Nat → Except String (List (Nat × List Nat))
  | 0, _ => .error "missing avpair terminator"
  | fuel + 1, buf =>
    if buf.length < 4 then .error "truncated avpair"
    else
      let t := le16dec buf 0
      let l := le16dec buf 2
      if t = 0 ∧ l = 0 then .ok []
      else if 4 + l ≤ buf.length then
        match NewAvPairsAux fuel (buf.drop (4 + l)) with
        | .ok rest => .ok ((t, slice buf 4 l) :: rest)
        | .error e => .error e
      else .error "avpair length out of bounds"

/-- Modelled from the spec: entry point of the AV-pair parser. -/
def NewAvPairs (buf : List Nat) : Except String (List (Nat × List Nat)) :=
  NewAvPairsAux (buf.length + 1) buf

/-- Modelled from the spec: `NewTargetInformation` (§4.2) projects the
parsed AV-pairs into the target-information record, preserving unknown
types; the record is modelled as the pair list itself. -/
def NewTargetInformation (pairs : List (Nat × List Nat)) :
    Except String (List (Nat × List Nat)) := .ok pairs

/-- The key material produced by the key-derivation engine (§4.3) while
computing the NT challenge response. -/
structure KeySet where
  ClientChallenge : List Nat := []
  SessionBaseKey : List Nat := []
  KeyExchangeKey : List Nat := []
  RandomSessionKey : List Nat := []
  ExportedSessionKey : List Nat := []
deriving DecidableEq

/-- The cryptographic primitives and repository helpers outside `src/` that
`AcceptSecContext` calls, abstracted as an oracle so that every theorem
holds for every implementation:
`hmacMd5 key data` is the 16-byte HMAC-MD5 digest (Go `crypto/hmac` with
`crypto/md5`; the digest length is HMAC-MD5's documented contract);
`lmResponse` is `NewLMChallengeResponse`;
`ntResponse` is `NewNtChallengeResponse`, which per §4.3 derives the session
key material (returned as a `KeySet`) together with the NT response and may
fail; `signKeyFn`/`sealKeyFn` are the repository's `signKey`/`sealKey`; and
`rc4New` is `rc4.NewCipher`, returning the cipher's keystream. -/
structure CryptoOracle where
  hmacMd5 : List Nat → List Nat → List Nat
  lmResponse : NtlmProvider → List Nat
  ntResponse : NtlmProvider → List Nat → Except String (KeySet × List Nat)
  signKeyFn : List Nat → List Nat → Nat → Except String (List Nat)
  sealKeyFn : List Nat → List Nat → Nat → Except String (List Nat)
  rc4New : List Nat → Except String (List Nat)
  hmac_len : ∀ k d, (hmacMd5 k d).length = 16

/-- ASCII bytes of a string (for the signing/sealing magic constants). -/
def asciiBytes (s : String) : List Nat := s.data.map Char.toNat

/-- Magic constant for the server-to-client signing key (line 340). -/
def serverSignMagic : List Nat :=
  asciiBytes "session key to server-to-client signing key magic constant\x00"

/-- Magic constant for the client-to-server signing key (line 349). -/
def clientSignMagic : List Nat :=
  asciiBytes "session key to client-to-server signing key magic constant\x00"

/-- Magic constant for the client-to-server sealing key (line 360). -/
def clientSealMagic : List Nat :=
  asciiBytes "session key to client-to-server sealing key magic constant\x00"

/-- Magic constant for the server-to-client sealing key (line 369). -/
def serverSealMagic : List Nat :=
  asciiBytes "session key to server-to-client sealing key magic constant\x00"

/-- One 8-byte AUTHENTICATE field descriptor as the Go code writes it:
`len:u16`, `maxlen:u16` (equal to len), `offset:u32`. -/
def fieldDesc (l off : Nat) : List Nat := le16enc l ++ le16enc l ++ le32enc off

/-- The fixed 88-byte header of the AUTHENTICATE message (`provider.go`
lines 250-322): the Go code writes these disjoint fields at fixed offsets
0-88 into a fresh zero buffer, which is the concatenation written here; the
MIC field at 72-88 is left zeroed at this point (`to overwrite later`). -/
def authHeader (m : NtlmProvider) (lm nt : List Nat) : List Nat :=
  let dom := ToUnicode (goToUpper m.Domain)
  let user := ToUnicode (goToUpper m.User)
  let wks := ToUnicode (goToUpper m.Workstation)
  Signature ++ le32enc MessageTypeNtLmAuthenticate ++
  fieldDesc lm.length 88 ++
  fieldDesc nt.length (88 + lm.length) ++
  fieldDesc dom.length (88 + lm.length + nt.length) ++
  fieldDesc user.length (88 + lm.length + nt.length + dom.length) ++
  fieldDesc wks.length (88 + lm.length + nt.length + dom.length + user.length) ++
  fieldDesc m.RandomSessionKey.length
    (88 + lm.length + nt.length + dom.length + user.length + wks.length) ++
  le32enc m.NegotiateFlags ++ ClientVersion ++ List.replicate 16 0

/-- The AUTHENTICATE payload region (appended in field order, lines
269-311). -/
def authPayload (m : NtlmProvider) (lm nt : List Nat) : List Nat :=
  lm ++ nt ++ ToUnicode (goToUpper m.Domain) ++ ToUnicode (goToUpper m.User) ++
  ToUnicode (goToUpper m.Workstation) ++ m.RandomSessionKey

/-- The emitted AUTHENTICATE bytes including the MIC step (lines 325-335),
modelled byte-exactly after the source: Go's
`hash.Sum(authenticateMessage[72:88])` returns its argument (the still-zero
MIC field) with the digest appended, and `copy` into the 16-byte MIC field
takes only the first 16 bytes of that result. -/
def authBytes (O : CryptoOracle) (m : NtlmProvider) (lm nt : List Nat) : List Nat :=
  let auth0 := authHeader m lm nt ++ authPayload m lm nt
  let digest := O.hmacMd5 m.ExportedSessionKey (m.NegotiateMessage ++ auth0)
  listWrite auth0 72 ((slice auth0 72 16 ++ digest).take 16)

/-- The AUTHENTICATE construction and key setup, `provider.go` lines
248-384. -/
def buildAuthenticate (O : CryptoOracle) (n : NtlmProvider) (lm nt : List Nat) :
    NtlmProvider × Except String (List Nat) :=
  let auth := authBytes O n lm nt
  let n4 := { n with AuthenticateMessage := auth }
  match O.signKeyFn n.ExportedSessionKey serverSignMagic n.NegotiateFlags with
  | .error e => (n4, .error e)
  | .ok srvSignKey =>
  let n5 := { n4 with ServerSigningKey := srvSignKey }
  match O.signKeyFn n.ExportedSessionKey clientSignMagic n.NegotiateFlags with
  | .error e => (n5, .error e)
  | .ok cliSignKey =>
  let n6 := { n5 with ClientSigningKey := cliSignKey }
  match O.sealKeyFn n.ExportedSessionKey clientSealMagic n.NegotiateFlags with
  | .error e => (n6, .error e)
  | .ok sealedClientKey =>
  match O.sealKeyFn n.ExportedSessionKey serverSealMagic n.NegotiateFlags with
  | .error e => (n6, .error e)
  | .ok sealedServerKey =>
  match O.rc4New sealedClientKey with
  | .error e => (n6, .error e)
  | .ok cliHandle =>
  let n7 := { n6 with ClientHandle := some cliHandle }
  match O.rc4New sealedServerKey with
  | .error e => (n7, .error e)
  | .ok srvHandle =>
  ({ n7 with ServerHandle := some srvHandle }, .ok auth)

/-- `AcceptSecContext` (`provider.go` lines 170-385): validates the
CHALLENGE, intersects flags, parses target info, and builds the
AUTHENTICATE message.  The result is the provider state after the call
(Go mutates the receiver in place, so mutations made before a failing step
persist) together with the returned message or error. -/
def AcceptSecContext (O : CryptoOracle) (n : NtlmProvider) (sc : List Nat) :
    NtlmProvider × Except String (List Nat) :=
  if sc.length < 48 then (n, .error "invalid challenge message length")
  else if sc.take 8 ≠ Signature then (n, .error "invalid signature")
  else if le32dec sc 8 ≠ MessageTypeNtLmChallenge then (n, .error "invalid message type")
  else
    match extractFields (slice sc 12 8) sc with
    | .error e => (n, .error e)
    | .ok targetName =>
      let challengeFlags := le32dec sc 20
      if n.NegotiateFlags &&& challengeFlags &&& RequestTarget = 0 ∨
          n.NegotiateFlags &&& challengeFlags &&& NegotiateTargetInfo = 0 then
        (n, .error "invalid negotiate flags")
      else
        let n1 := { n with ServerChallenge := slice sc 24 8 }
        match extractFields (slice sc 40 8) sc with
        | .error e => (n1, .error e)
        | .ok targetInfo =>
          match NewAvPairs targetInfo with
          | .error e => (n1, .error e)
          | .ok avpairs =>
            match NewTargetInformation avpairs with
            | .error e => (n1, .error e)
            | .ok ti =>
              let n2 := { n1 with TargetInfo := some ti }
              let lm := O.lmResponse n2
              match O.ntResponse n2 targetName with
              | .error e => (n2, .error e)
              | .ok (ks, nt) =>
                let n3 := { n2 with
                  ClientChallenge := ks.ClientChallenge,
                  SessionBaseKey := ks.SessionBaseKey,
                  KeyExchangeKey := ks.KeyExchangeKey,
                  RandomSessionKey := ks.RandomSessionKey,
                  ExportedSessionKey := ks.ExportedSessionKey }
                buildAuthenticate O n3 lm nt

/-- RC4 encryption step over the modelled keystream: XOR the data with the
next keystream bytes (pass-through beyond the modelled keystream prefix —
real RC4 is length-preserving) and consume them. -/
def rc4Apply (ks : List Nat) (data : List Nat) : List Nat × List Nat :=
  (data.zipWith Nat.xor (ks.take data.length) ++ data.drop ks.length,
    ks.drop data.length)

/-- Modelled from the spec: the repository's `sign` function (§4.4, not
under `src/`).  The checksum is the first 8 bytes of HMAC-MD5 over
`sequenceNumber ‖ plaintext` under the signing key, encrypted through the
stream cipher when key exchange was negotiated (pass-through when the
handle is nil); the 16-byte signature record is
`version(4)=1 ‖ checksum(8) ‖ sequenceNumber(4)` and the 32-bit sequence
counter is incremented.  Returns the record, the new counter, and the new
cipher state; `rc4MaybeEncrypt` is the conditional encryption step. -/
def rc4MaybeEncrypt (flags : Nat) (handle : Option (List Nat)) (data : List Nat) :
    List Nat × Option (List Nat) :=
  if flags &&& NegotiateKeyExch ≠ 0 then
    match handle with
    | some ks => ((rc4Apply ks data).1, some (rc4Apply ks data).2)
    | none => (data, none)
  else (data, handle)

/-- See the comment on `rc4MaybeEncrypt`: this is the modelled `sign`. -/
def ntlmSign (O : CryptoOracle) (flags : Nat) (handle : Option (List Nat))
    (key : List Nat) (seq : Nat) (msg : List Nat) :
    List Nat × Nat × Option (List Nat) :=
  let checksum := (O.hmacMd5 key (le32enc seq ++ msg)).take 8
  let encPair := rc4MaybeEncrypt flags handle checksum
  (le32enc 1 ++ encPair.1 ++ le32enc seq, (seq + 1) % 4294967296, encPair.2)

/-- `GetMIC` (`provider.go` lines 388-402): returns the empty signature
without touching any state when signing was not negotiated, else signs with
the client handle and signing key and stores the incremented sequence number
(and the advanced cipher state, which Go mutates through the handle
pointer). -/
def GetMIC (O : CryptoOracle) (n : NtlmProvider) (bs : List Nat) :
    NtlmProvider × List Nat :=
  if n.NegotiateFlags &&& NegotiateSign = 0 then (n, [])
  else
    let r := ntlmSign O n.NegotiateFlags n.ClientHandle n.ClientSigningKey n.SequenceNumber bs
    ({ n with SequenceNumber := r.2.1, ClientHandle := r.2.2 }, r.1)

/-- `SessionKey` (`provider.go` lines 405-407). -/
def SessionKey (n : NtlmProvider) : List Nat := n.ExportedSessionKey

/-- Iterated `GetMIC`: sign each message in order, collecting the emitted
signatures. -/
def runGetMICs (O : CryptoOracle) (n : NtlmProvider) :
    List (List Nat) → NtlmProvider × List (List Nat)
  | [] => (n, [])
  | m :: ms =>
    let r := GetMIC O n m
    let rest := runGetMICs O r.1 ms
    (rest.1, r.2 :: rest.2)

/-- The message of a successful result (`[]` for an error). -/
def okBytes : Except String (List Nat) → List Nat
  | .ok m => m
  | .error _ => []

/-- A concrete oracle instance used by the witness theorems: every theorem
below is proved for all oracles, and this one lets the hypotheses be
discharged by evaluation. -/
def dummyOracle : CryptoOracle where
  hmacMd5 := fun _ _ => List.replicate 16 9
  lmResponse := fun _ => [1, 1]
  ntResponse := fun _ _ =>
    .ok ({ ExportedSessionKey := List.replicate 16 5, RandomSessionKey := [3, 3] }, [2, 2, 2])
  signKeyFn := fun _ _ _ => .ok (List.replicate 16 6)
  sealKeyFn := fun _ _ _ => .ok (List.replicate 16 7)
  rc4New := fun _ => .ok (List.replicate 32 8)
  hmac_len := fun _ _ => by simp

/-- A CHALLENGE message the provider accepts: valid signature and type,
empty target name, flags granting target-request and target-info, an
8-byte server challenge, and a 4-byte target-info payload holding the
AV-pair terminator at offset 48. -/
def demoChallenge : List Nat :=
  Signature ++ le32enc 2 ++ List.replicate 8 0 ++
  le32enc (RequestTarget ||| NegotiateTargetInfo) ++ List.replicate 8 7 ++
  List.replicate 8 0 ++ (le16enc 4 ++ le16enc 4 ++ le32enc 48) ++ [0, 0, 0, 0]

/-- A session about to consume `demoChallenge`. -/
def demoProv : NtlmProvider :=
  { User := "usr", Domain := "dOm", Workstation := "ws",
    NegotiateFlags := RequestTarget ||| NegotiateTargetInfo ||| NegotiateSign }

section DecodeLemmas

theorem le16enc_length (v : Nat) : (le16enc v).length = 2 := rfl

theorem le32enc_length (v : Nat) : (le32enc v).length = 4 := rfl

theorem fieldDesc_length (l o : Nat) : (fieldDesc l o).length = 8 := rfl

theorem getD_append_ge (a b : List Nat) (i : Nat) (h : a.length ≤ i) :
    (a ++ b).getD i 0 = b.getD (i - a.length) 0 :=
  List.getD_append_right a b 0 i h

theorem le16dec_append (a b : List Nat) (i : Nat) (h : a.length ≤ i) :
    le16dec (a ++ b) i = le16dec b (i - a.length) := by
  unfold le16dec
  rw [getD_append_ge a b i h, getD_append_ge a b (i + 1) (by omega)]
  have e1 : i + 1 - a.length = i - a.length + 1 := by omega
  rw [e1]

theorem le32dec_append (a b : List Nat) (i : Nat) (h : a.length ≤ i) :
    le32dec (a ++ b) i = le32dec b (i - a.length) := by
  unfold le32dec
  rw [getD_append_ge a b i h, getD_append_ge a b (i + 1) (by omega),
    getD_append_ge a b (i + 2) (by omega), getD_append_ge a b (i + 3) (by omega)]
  have e1 : i + 1 - a.length = i - a.length + 1 := by omega
  have e2 : i + 2 - a.length = i - a.length + 1 + 1 := by omega
  have e3 : i + 3 - a.length = i - a.length + 1 + 1 + 1 := by omega
  rw [e1, e2, e3]

theorem le16dec_enc (v : Nat) (rest : List Nat) :
    le16dec (le16enc v ++ rest) 0 = v % 65536 := by
  show v % 256 + 256 * (v / 256 % 256) = v % 65536
  omega

theorem le32dec_enc (v : Nat) (rest : List Nat) :
    le32dec (le32enc v ++ rest) 0 = v % 4294967296 := by
  show v % 256 + 256 * (v / 256 % 256) + 65536 * (v / 65536 % 256) +
    16777216 * (v / 16777216 % 256) = v % 4294967296
  omega

theorem le16dec_fieldDesc (l o : Nat) (rest : List Nat) :
    le16dec (fieldDesc l o ++ rest) 0 = l % 65536 := by
  unfold fieldDesc
  rw [List.append_assoc, List.append_assoc, le16dec_enc]

theorem le32dec_fieldDesc (l o : Nat) (rest : List Nat) :
    le32dec (fieldDesc l o ++ rest) 4 = o % 4294967296 := by
  unfold fieldDesc
  rw [List.append_assoc, List.append_assoc,
    le32dec_append (le16enc l) _ 4 (by rw [le16enc_length]; omega)]
  rw [le16enc_length]
  rw [le32dec_append (le16enc l) _ 2 (by rw [le16enc_length])]
  rw [le16enc_length, le32dec_enc]

theorem slice_append_exact (a b c : List Nat) :
    slice (a ++ (b ++ c)) a.length b.length = b := by
  unfold slice
  rw [List.drop_left, List.take_left]

theorem slice_mid (a b c : List Nat) (i k : Nat) (ha : a.length = i)
    (hb : b.length = k) : slice (a ++ (b ++ c)) i k = b := by
  subst ha; subst hb
  exact slice_append_exact a b c

theorem take_len_append (a b : List Nat) (k : Nat) (hk : a.length = k) :
    (a ++ b).take k = a := by
  subst hk
  exact List.take_left a b

theorem drop_len_append (a b : List Nat) (k : Nat) (hk : a.length = k) :
    (a ++ b).drop k = b := by
  subst hk
  exact List.drop_left a b

theorem slice_listWrite (buf v : List Nat) (i k : Nat) (hk : v.length = k)
    (hle : i ≤ buf.length) : slice (listWrite buf i v) i k = v := by
  unfold listWrite
  rw [List.append_assoc]
  exact slice_mid _ _ _ i k (by rw [List.length_take]; omega) hk

theorem listWrite_slice (buf : List Nat) (i k : Nat) (h : i + k ≤ buf.length) :
    listWrite buf i (slice buf i k) = buf := by
  unfold listWrite slice
  have hlen : ((buf.drop i).take k).length = k := by
    rw [List.length_take, List.length_drop]
    omega
  rw [hlen, List.append_assoc]
  have hd : buf.drop (i + k) = (buf.drop i).drop k := by
    rw [List.drop_drop]
  rw [hd, List.take_append_drop, List.take_append_drop]

end DecodeLemmas

/-- Decoding offset 12 of any message of the NEGOTIATE shape recovers the
flags word modulo `2^32`. -/
theorem le32dec_negotiate_msg (f : Nat) (b c d e : List Nat) :
    le32dec (Signature ++ le32enc MessageTypeNtLmNegotiate ++ le32enc f ++
      b ++ c ++ d ++ e) 12 = f % 4294967296 := by
  have h1 : Signature ++ le32enc MessageTypeNtLmNegotiate ++ le32enc f ++ b ++ c ++ d ++ e =
      (Signature ++ le32enc MessageTypeNtLmNegotiate) ++
        (le32enc f ++ (b ++ (c ++ (d ++ e)))) := by
    simp [List.append_assoc]
  rw [h1, le32dec_append _ _ 12 (by decide)]
  exact le32dec_enc f _

/-- Claim C2 (amended): decoding the little-endian flags word at offset 12
of the NEGOTIATE message produced by `InitSecContext` yields the caller's
`NegotiateFlags` (or `DefaultClientFlags` when the caller left them zero),
bitwise-ORed with `NegotiateDomainSupplied` when `Domain` is nonempty and
with `NegotiateWorkstationSupplied` when `Workstation` is nonempty. -/
theorem initSecContext_flags_encoded (n : NtlmProvider)
    (h : n.NegotiateFlags < 2 ^ 32) :
    le32dec (InitSecContext n).2 12 =
      ((if n.NegotiateFlags = 0 then DefaultClientFlags else n.NegotiateFlags) |||
        (if n.Domain ≠ "" then NegotiateDomainSupplied else 0)) |||
      (if n.Workstation ≠ "" then NegotiateWorkstationSupplied else 0) := by
  have hd : DefaultClientFlags < 2 ^ 32 := by decide
  have h0 : (if n.NegotiateFlags = 0 then DefaultClientFlags else n.NegotiateFlags) < 2 ^ 32 := by
    split
    · exact hd
    · exact h
  have hb1 : (if n.Domain ≠ "" then NegotiateDomainSupplied else 0) < 2 ^ 32 := by
    by_cases hdm : n.Domain = "" <;> simp [hdm] <;> decide
  have hb2 : (if n.Workstation ≠ "" then NegotiateWorkstationSupplied else 0) < 2 ^ 32 := by
    by_cases hw : n.Workstation = "" <;> simp [hw] <;> decide
  have h1 : ((if n.NegotiateFlags = 0 then DefaultClientFlags else n.NegotiateFlags) |||
      (if n.Domain ≠ "" then NegotiateDomainSupplied else 0)) < 2 ^ 32 :=
    Nat.or_lt_two_pow h0 hb1
  have h2 : (((if n.NegotiateFlags = 0 then DefaultClientFlags else n.NegotiateFlags) |||
      (if n.Domain ≠ "" then NegotiateDomainSupplied else 0)) |||
      (if n.Workstation ≠ "" then NegotiateWorkstationSupplied else 0)) < 2 ^ 32 :=
    Nat.or_lt_two_pow h1 hb2
  unfold InitSecContext
  dsimp only
  rw [le32dec_negotiate_msg]
  have hshape : (if n.Workstation ≠ "" then
        (if n.Domain ≠ "" then
          (if n.NegotiateFlags = 0 then DefaultClientFlags else n.NegotiateFlags) |||
            NegotiateDomainSupplied
         else (if n.NegotiateFlags = 0 then DefaultClientFlags else n.NegotiateFlags)) |||
          NegotiateWorkstationSupplied
      else (if n.Domain ≠ "" then
          (if n.NegotiateFlags = 0 then DefaultClientFlags else n.NegotiateFlags) |||
            NegotiateDomainSupplied
         else (if n.NegotiateFlags = 0 then DefaultClientFlags else n.NegotiateFlags))) =
      ((if n.NegotiateFlags = 0 then DefaultClientFlags else n.NegotiateFlags) |||
        (if n.Domain ≠ "" then NegotiateDomainSupplied else 0)) |||
      (if n.Workstation ≠ "" then NegotiateWorkstationSupplied else 0) := by
    by_cases hdm : n.Domain = "" <;> by_cases hw : n.Workstation = "" <;> simp [hdm, hw]
  rw [hshape]
  omega

/-- Claim C2, counterexample to the claim as stated: with caller flags
`0x1` (`NegotiateUnicode`) and a nonempty domain, the encoded flags word is
`0x1001`, not the flags the caller set. -/
theorem initSecContext_extra_supplied_bits :
    le32dec (InitSecContext { NegotiateFlags := 1, Domain := "A" : NtlmProvider }).2 12 ≠
      ({ NegotiateFlags := 1, Domain := "A" : NtlmProvider }).NegotiateFlags := by
  decide

/-- Witness for `initSecContext_flags_encoded` at a concrete session. -/
theorem initSecContext_flags_encoded_witness :
    ({ NegotiateFlags := 5 : NtlmProvider }).NegotiateFlags < 2 ^ 32 ∧
    le32dec (InitSecContext { NegotiateFlags := 5 : NtlmProvider }).2 12 =
      ((if ({ NegotiateFlags := 5 : NtlmProvider }).NegotiateFlags = 0 then DefaultClientFlags
        else ({ NegotiateFlags := 5 : NtlmProvider }).NegotiateFlags) |||
        (if ({ NegotiateFlags := 5 : NtlmProvider }).Domain ≠ "" then NegotiateDomainSupplied
        else 0)) |||
      (if ({ NegotiateFlags := 5 : NtlmProvider }).Workstation ≠ ""
        then NegotiateWorkstationSupplied else 0) :=
  ⟨by decide, initSecContext_flags_encoded { NegotiateFlags := 5 } (by decide)⟩

/-- Claim C3: `AcceptSecContext` on a buffer shorter than 48 bytes fails
with the malformed-message error and returns the session state exactly as
it was. -/
theorem acceptSecContext_short_buffer (O : CryptoOracle) (n : NtlmProvider)
    (sc : List Nat) (h : sc.length < 48) :
    AcceptSecContext O n sc = (n, .error "invalid challenge message length") := by
  unfold AcceptSecContext
  rw [if_pos h]

/-- Witness for `acceptSecContext_short_buffer` on the empty buffer. -/
theorem acceptSecContext_short_buffer_witness :
    ([] : List Nat).length < 48 ∧
    AcceptSecContext dummyOracle ({} : NtlmProvider) [] =
      (({} : NtlmProvider), .error "invalid challenge message length") :=
  ⟨by decide, acceptSecContext_short_buffer dummyOracle {} [] (by decide)⟩

/-- Claim C4: a buffer of at least 48 bytes whose signature differs from
the NTLM signature constant, or whose message type differs from 2, makes
`AcceptSecContext` fail with a protocol error (the model is total, so no
crash is possible). -/
theorem acceptSecContext_bad_signature_or_type (O : CryptoOracle)
    (n : NtlmProvider) (sc : List Nat) (hlen : 48 ≤ sc.length)
    (hbad : sc.take 8 ≠ Signature ∨ le32dec sc 8 ≠ MessageTypeNtLmChallenge) :
    (AcceptSecContext O n sc).2 = .error "invalid signature" ∨
    (AcceptSecContext O n sc).2 = .error "invalid message type" := by
  unfold AcceptSecContext
  rw [if_neg (by omega)]
  by_cases hs : sc.take 8 = Signature
  · rcases hbad with hb | hb
    · exact absurd hs hb
    · rw [if_neg (not_not_intro hs), if_pos hb]
      right
      rfl
  · rw [if_pos hs]
    left
    rfl

/-- Witness for `acceptSecContext_bad_signature_or_type` on 48 zero bytes. -/
theorem acceptSecContext_bad_signature_or_type_witness :
    48 ≤ (List.replicate 48 0 : List Nat).length ∧
    ((AcceptSecContext dummyOracle ({} : NtlmProvider) (List.replicate 48 0)).2 =
        .error "invalid signature" ∨
      (AcceptSecContext dummyOracle ({} : NtlmProvider) (List.replicate 48 0)).2 =
        .error "invalid message type") :=
  ⟨by decide,
    acceptSecContext_bad_signature_or_type dummyOracle {} (List.replicate 48 0)
      (by decide) (by decide)⟩

/-- Claim C5: an otherwise well-formed CHALLENGE whose flags, intersected
with the session's, lack the target-request bit or the target-info bit
makes `AcceptSecContext` fail instead of producing an AUTHENTICATE
message. -/
theorem acceptSecContext_missing_required_flags (O : CryptoOracle)
    (n : NtlmProvider) (sc tn : List Nat) (hlen : 48 ≤ sc.length)
    (hsig : sc.take 8 = Signature)
    (htype : le32dec sc 8 = MessageTypeNtLmChallenge)
    (htn : extractFields (slice sc 12 8) sc = .ok tn)
    (hflags : n.NegotiateFlags &&& le32dec sc 20 &&& RequestTarget = 0 ∨
      n.NegotiateFlags &&& le32dec sc 20 &&& NegotiateTargetInfo = 0) :
    (AcceptSecContext O n sc).2 = .error "invalid negotiate flags" := by
  unfold AcceptSecContext
  rw [if_neg (by omega), if_neg (not_not_intro hsig), if_neg (not_not_intro htype), htn]
  dsimp only
  rw [if_pos hflags]

/-- Witness for `acceptSecContext_missing_required_flags`: a valid header
with all-zero flags meets a session with zero flags. -/
theorem acceptSecContext_missing_required_flags_witness :
    48 ≤ (Signature ++ le32enc 2 ++ List.replicate 36 0).length ∧
    (Signature ++ le32enc 2 ++ List.replicate 36 0).take 8 = Signature ∧
    le32dec (Signature ++ le32enc 2 ++ List.replicate 36 0) 8 = MessageTypeNtLmChallenge ∧
    extractFields (slice (Signature ++ le32enc 2 ++ List.replicate 36 0) 12 8)
      (Signature ++ le32enc 2 ++ List.replicate 36 0) = .ok [] ∧
    (AcceptSecContext dummyOracle ({} : NtlmProvider)
      (Signature ++ le32enc 2 ++ List.replicate 36 0)).2 = .error "invalid negotiate flags" :=
  ⟨by decide, by decide, by decide, by decide,
    acceptSecContext_missing_required_flags dummyOracle {} _ []
      (by decide) (by decide) (by decide) (by decide) (by decide)⟩

/-- Claim C8: when `NegotiateSign` was not negotiated, `GetMIC` returns the
empty signature and the session — every field, including the sequence
counter and both cipher handles — is unchanged. -/
theorem getMIC_unsigned_noop (O : CryptoOracle) (n : NtlmProvider)
    (bs : List Nat) (h : n.NegotiateFlags &&& NegotiateSign = 0) :
    GetMIC O n bs = (n, []) := by
  unfold GetMIC
  rw [if_pos h]

/-- Witness for `getMIC_unsigned_noop` on a fresh session. -/
theorem getMIC_unsigned_noop_witness :
    ({} : NtlmProvider).NegotiateFlags &&& NegotiateSign = 0 ∧
    GetMIC dummyOracle ({} : NtlmProvider) [9] = (({} : NtlmProvider), []) :=
  ⟨by decide, getMIC_unsigned_noop dummyOracle {} [9] (by decide)⟩

/-- Claim C10: `SessionKey` is total and simply returns the
`ExportedSessionKey` field; on a fresh session, and still after
`InitSecContext`, that field is the empty (nil) buffer, with no error or
sequence-error outcome. -/
theorem sessionKey_total :
    (∀ n : NtlmProvider, SessionKey n = n.ExportedSessionKey) ∧
    (∀ (u p d w : String) (ha : List Nat) (f : Nat),
      SessionKey { User := u, Password := p, Hash := ha, Domain := d,
                   Workstation := w, NegotiateFlags := f } = []) ∧
    (∀ (u p d w : String) (ha : List Nat) (f : Nat),
      SessionKey (InitSecContext { User := u, Password := p, Hash := ha,
                                   Domain := d, Workstation := w,
                                   NegotiateFlags := f }).1 = []) :=
  ⟨fun _ => rfl, fun _ _ _ _ _ _ => rfl, fun _ _ _ _ _ _ => rfl⟩

section AuthenticateStructure

theorem authHeader_length (m : NtlmProvider) (lm nt : List Nat) :
    (authHeader m lm nt).length = 88 := by
  simp [authHeader, fieldDesc, le16enc, le32enc, Signature, ClientVersion]

theorem authHeader_drop72 (m : NtlmProvider) (lm nt : List Nat) :
    (authHeader m lm nt).drop 72 = List.replicate 16 0 := by
  unfold authHeader
  dsimp only
  exact drop_len_append _ _ 72
    (by simp [fieldDesc, le16enc, le32enc, Signature, ClientVersion])

theorem auth0_mic_region (m : NtlmProvider) (lm nt : List Nat) :
    slice (authHeader m lm nt ++ authPayload m lm nt) 72 16 = List.replicate 16 0 := by
  unfold slice
  rw [List.drop_append_of_le_length (by rw [authHeader_length]; omega)]
  rw [authHeader_drop72]
  exact take_len_append _ _ 16 (by simp)

/-- The Sum-and-copy slip is invisible at the byte level: the emitted
AUTHENTICATE equals the buffer with the MIC field still zeroed. -/
theorem authBytes_eq (O : CryptoOracle) (m : NtlmProvider) (lm nt : List Nat) :
    authBytes O m lm nt = authHeader m lm nt ++ authPayload m lm nt := by
  unfold authBytes
  dsimp only
  rw [auth0_mic_region]
  rw [take_len_append _ _ 16 (by simp)]
  rw [show List.replicate 16 (0 : Nat) =
      slice (authHeader m lm nt ++ authPayload m lm nt) 72 16 from
    (auth0_mic_region m lm nt).symm]
  exact listWrite_slice _ 72 16 (by rw [List.length_append, authHeader_length]; omega)

theorem authBytes_mic_zero_region (O : CryptoOracle) (m : NtlmProvider)
    (lm nt : List Nat) :
    slice (authBytes O m lm nt) 72 16 = List.replicate 16 0 := by
  rw [authBytes_eq]
  exact auth0_mic_region m lm nt

theorem buildAuthenticate_ok (O : CryptoOracle) (m : NtlmProvider)
    (lm nt msg : List Nat) (h : (buildAuthenticate O m lm nt).2 = .ok msg) :
    msg = authBytes O m lm nt := by
  unfold buildAuthenticate at h
  dsimp only at h
  repeat' split at h
  all_goals simp_all

end AuthenticateStructure

/-- Claim C1 (the code diverges): in every AUTHENTICATE message emitted by
a successful `AcceptSecContext`, the 16-byte MIC field at offset 72 is all
zeros — for every choice of HMAC implementation — because the code copies
the first 16 bytes of `hash.Sum(authenticateMessage[72:88])`, which are the
zeroed MIC field itself rather than the appended digest (and the HMAC input
also omits the CHALLENGE message). -/
theorem acceptSecContext_mic_zero (O : CryptoOracle) (n : NtlmProvider)
    (sc msg : List Nat) (h : (AcceptSecContext O n sc).2 = .ok msg) :
    slice msg 72 16 = List.replicate 16 0 := by
  unfold AcceptSecContext at h
  repeat' (first | split at h | dsimp only at h)
  all_goals
    first
      | (rw [buildAuthenticate_ok _ _ _ _ _ h]
         exact authBytes_mic_zero_region _ _ _ _)
      | exact absurd h (by simp)

/-- Witness for `acceptSecContext_mic_zero` on a concrete accepted
exchange. -/
theorem acceptSecContext_mic_zero_witness :
    slice (okBytes (AcceptSecContext dummyOracle demoProv demoChallenge).2) 72 16 =
      List.replicate 16 0 :=
  acceptSecContext_mic_zero dummyOracle demoProv demoChallenge _ (by rfl)

section PayloadFields

theorem le16dec_at_desc (P R : List Nat) (l o i : Nat) (hP : P.length = i) :
    le16dec (P ++ (fieldDesc l o ++ R)) i = l % 65536 := by
  rw [le16dec_append P _ i (by omega), hP, Nat.sub_self]
  exact le16dec_fieldDesc l o R

theorem le32dec_at_desc (P R : List Nat) (l o i : Nat) (hP : P.length = i) :
    le32dec (P ++ (fieldDesc l o ++ R)) (i + 4) = o % 4294967296 := by
  rw [le32dec_append P _ (i + 4) (by omega), hP]
  have h4 : i + 4 - i = 4 := by omega
  rw [h4]
  exact le32dec_fieldDesc l o R

/-- Decoding one length/offset descriptor of a message and slicing at the
decoded position recovers the payload field it addresses, provided the
whole message is shorter than `2^16`. -/
theorem field_desc_roundtrip (A P Q R S b : List Nat) (i o : Nat)
    (hsplitDesc : A = P ++ (fieldDesc b.length o ++ R)) (hP : P.length = i)
    (hsplitPay : A = Q ++ (b ++ S)) (hQ : Q.length = o)
    (hm : A.length < 65536) :
    slice A (le32dec A (i + 4)) (le16dec A i) = b := by
  have h16 : le16dec A i = b.length % 65536 := by
    rw [hsplitDesc]; exact le16dec_at_desc P R b.length o i hP
  have h32 : le32dec A (i + 4) = o % 4294967296 := by
    rw [hsplitDesc]; exact le32dec_at_desc P R b.length o i hP
  have hlen : A.length = Q.length + (b.length + S.length) := by
    rw [hsplitPay]; simp [List.length_append]
  have hb : b.length < 65536 := by omega
  have ho : o < 4294967296 := by omega
  rw [h16, h32, Nat.mod_eq_of_lt hb, Nat.mod_eq_of_lt ho, hsplitPay]
  exact slice_mid Q b S o b.length hQ rfl

/-- The domain, user, and workstation fields of the emitted AUTHENTICATE
message, addressed through their descriptors at offsets 28/32, 36/40 and
44/48, carry the UTF-16LE encodings of the uppercased inputs. -/
theorem authBytes_names (O : CryptoOracle) (m : NtlmProvider) (lm nt : List Nat)
    (hm : (authBytes O m lm nt).length < 65536) :
    slice (authBytes O m lm nt) (le32dec (authBytes O m lm nt) 32)
        (le16dec (authBytes O m lm nt) 28) = ToUnicode (goToUpper m.Domain) ∧
    slice (authBytes O m lm nt) (le32dec (authBytes O m lm nt) 40)
        (le16dec (authBytes O m lm nt) 36) = ToUnicode (goToUpper m.User) ∧
    slice (authBytes O m lm nt) (le32dec (authBytes O m lm nt) 48)
        (le16dec (authBytes O m lm nt) 44) = ToUnicode (goToUpper m.Workstation) := by
  rw [authBytes_eq] at hm ⊢
  obtain ⟨R1, hR1⟩ : ∃ R, authHeader m lm nt ++ authPayload m lm nt =
      (Signature ++ le32enc MessageTypeNtLmAuthenticate ++ fieldDesc lm.length 88 ++
        fieldDesc nt.length (88 + lm.length)) ++
      (fieldDesc (ToUnicode (goToUpper m.Domain)).length (88 + lm.length + nt.length) ++ R) :=
    ⟨_, by unfold authHeader authPayload; dsimp only; simp only [List.append_assoc]; rfl⟩
  obtain ⟨R2, hR2⟩ : ∃ R, authHeader m lm nt ++ authPayload m lm nt =
      (Signature ++ le32enc MessageTypeNtLmAuthenticate ++ fieldDesc lm.length 88 ++
        fieldDesc nt.length (88 + lm.length) ++
        fieldDesc (ToUnicode (goToUpper m.Domain)).length (88 + lm.length + nt.length)) ++
      (fieldDesc (ToUnicode (goToUpper m.User)).length
          (88 + lm.length + nt.length + (ToUnicode (goToUpper m.Domain)).length) ++ R) :=
    ⟨_, by unfold authHeader authPayload; dsimp only; simp only [List.append_assoc]; rfl⟩
  obtain ⟨R3, hR3⟩ : ∃ R, authHeader m lm nt ++ authPayload m lm nt =
      (Signature ++ le32enc MessageTypeNtLmAuthenticate ++ fieldDesc lm.length 88 ++
        fieldDesc nt.length (88 + lm.length) ++
        fieldDesc (ToUnicode (goToUpper m.Domain)).length (88 + lm.length + nt.length) ++
        fieldDesc (ToUnicode (goToUpper m.User)).length
          (88 + lm.length + nt.length + (ToUnicode (goToUpper m.Domain)).length)) ++
      (fieldDesc (ToUnicode (goToUpper m.Workstation)).length
          (88 + lm.length + nt.length + (ToUnicode (goToUpper m.Domain)).length +
            (ToUnicode (goToUpper m.User)).length) ++ R) :=
    ⟨_, by unfold authHeader authPayload; dsimp only; simp only [List.append_assoc]; rfl⟩
  obtain ⟨S1, hS1⟩ : ∃ S, authHeader m lm nt ++ authPayload m lm nt =
      (authHeader m lm nt ++ lm ++ nt) ++ (ToUnicode (goToUpper m.Domain) ++ S) :=
    ⟨_, by unfold authPayload; simp only [List.append_assoc]; rfl⟩
  obtain ⟨S2, hS2⟩ : ∃ S, authHeader m lm nt ++ authPayload m lm nt =
      (authHeader m lm nt ++ lm ++ nt ++ ToUnicode (goToUpper m.Domain)) ++
        (ToUnicode (goToUpper m.User) ++ S) :=
    ⟨_, by unfold authPayload; simp only [List.append_assoc]; rfl⟩
  obtain ⟨S3, hS3⟩ : ∃ S, authHeader m lm nt ++ authPayload m lm nt =
      (authHeader m lm nt ++ lm ++ nt ++ ToUnicode (goToUpper m.Domain) ++
        ToUnicode (goToUpper m.User)) ++ (ToUnicode (goToUpper m.Workstation) ++ S) :=
    ⟨_, by unfold authPayload; simp only [List.append_assoc]; rfl⟩
  refine ⟨?_, ?_, ?_⟩
  · exact field_desc_roundtrip _ _ _ _ _ _ 28 _ hR1
      (by simp [fieldDesc, le16enc, le32enc, Signature]) hS1
      (by simp [List.length_append, authHeader_length]; try omega) hm
  · exact field_desc_roundtrip _ _ _ _ _ _ 36 _ hR2
      (by simp [fieldDesc, le16enc, le32enc, Signature]) hS2
      (by simp [List.length_append, authHeader_length]; try omega) hm
  · exact field_desc_roundtrip _ _ _ _ _ _ 44 _ hR3
      (by simp [fieldDesc, le16enc, le32enc, Signature]) hS3
      (by simp [List.length_append, authHeader_length]; try omega) hm

end PayloadFields

/-- Claim C9: in every AUTHENTICATE message emitted by a successful
`AcceptSecContext` (of total length under `2^16`, so the 16-bit descriptors
are faithful), the domain, user and workstation payload fields addressed by
their descriptors carry the UTF-16LE encodings of the uppercased inputs,
not the strings as supplied. -/
theorem acceptSecContext_uppercases_names (O : CryptoOracle) (n : NtlmProvider)
    (sc msg : List Nat) (h : (AcceptSecContext O n sc).2 = .ok msg)
    (hm : msg.length < 65536) :
    slice msg (le32dec msg 32) (le16dec msg 28) = ToUnicode (goToUpper n.Domain) ∧
    slice msg (le32dec msg 40) (le16dec msg 36) = ToUnicode (goToUpper n.User) ∧
    slice msg (le32dec msg 48) (le16dec msg 44) = ToUnicode (goToUpper n.Workstation) := by
  unfold AcceptSecContext at h
  repeat' (first | split at h | dsimp only at h)
  all_goals
    first
      | (rw [buildAuthenticate_ok _ _ _ _ _ h] at hm ⊢
         exact authBytes_names _ _ _ _ hm)
      | exact absurd h (by simp)

/-- Witness for `acceptSecContext_uppercases_names` on a concrete accepted
exchange with mixed-case inputs. -/
theorem acceptSecContext_uppercases_names_witness :
    (okBytes (AcceptSecContext dummyOracle demoProv demoChallenge).2).length < 65536 ∧
    (slice (okBytes (AcceptSecContext dummyOracle demoProv demoChallenge).2)
        (le32dec (okBytes (AcceptSecContext dummyOracle demoProv demoChallenge).2) 32)
        (le16dec (okBytes (AcceptSecContext dummyOracle demoProv demoChallenge).2) 28) =
        ToUnicode (goToUpper demoProv.Domain) ∧
      slice (okBytes (AcceptSecContext dummyOracle demoProv demoChallenge).2)
        (le32dec (okBytes (AcceptSecContext dummyOracle demoProv demoChallenge).2) 40)
        (le16dec (okBytes (AcceptSecContext dummyOracle demoProv demoChallenge).2) 36) =
        ToUnicode (goToUpper demoProv.User) ∧
      slice (okBytes (AcceptSecContext dummyOracle demoProv demoChallenge).2)
        (le32dec (okBytes (AcceptSecContext dummyOracle demoProv demoChallenge).2) 48)
        (le16dec (okBytes (AcceptSecContext dummyOracle demoProv demoChallenge).2) 44) =
        ToUnicode (goToUpper demoProv.Workstation)) :=
  ⟨by decide,
    acceptSecContext_uppercases_names dummyOracle demoProv demoChallenge _ (by rfl) (by decide)⟩

section Signing

theorem rc4Apply_fst_length (ks data : List Nat) :
    ((rc4Apply ks data).1).length = data.length := by
  unfold rc4Apply
  simp only [List.length_append, List.length_zipWith, List.length_take, List.length_drop]
  omega

theorem rc4MaybeEncrypt_fst_length (flags : Nat) (handle : Option (List Nat))
    (data : List Nat) : ((rc4MaybeEncrypt flags handle data).1).length = data.length := by
  unfold rc4MaybeEncrypt
  split
  · cases handle with
    | some ks => exact rc4Apply_fst_length ks data
    | none => rfl
  · rfl

theorem ntlmSign_checksum_length (O : CryptoOracle) (flags : Nat)
    (handle : Option (List Nat)) (key : List Nat) (seq : Nat) (msg : List Nat) :
    ((rc4MaybeEncrypt flags handle ((O.hmacMd5 key (le32enc seq ++ msg)).take 8)).1).length = 8 := by
  rw [rc4MaybeEncrypt_fst_length, List.length_take, O.hmac_len]
  omega

theorem ntlmSign_record_length (O : CryptoOracle) (flags : Nat)
    (handle : Option (List Nat)) (key : List Nat) (seq : Nat) (msg : List Nat) :
    (ntlmSign O flags handle key seq msg).1.length = 16 := by
  unfold ntlmSign
  dsimp only
  rw [List.length_append, List.length_append, ntlmSign_checksum_length]
  rfl

theorem ntlmSign_record_seq (O : CryptoOracle) (flags : Nat)
    (handle : Option (List Nat)) (key : List Nat) (seq : Nat) (msg : List Nat) :
    (ntlmSign O flags handle key seq msg).1.drop 12 = le32enc seq := by
  unfold ntlmSign
  dsimp only
  exact drop_len_append _ _ 12
    (by rw [List.length_append, ntlmSign_checksum_length]; rfl)

theorem getMIC_flags_invariant (O : CryptoOracle) (n : NtlmProvider) (bs : List Nat) :
    (GetMIC O n bs).1.NegotiateFlags = n.NegotiateFlags := by
  unfold GetMIC
  split
  · rfl
  · rfl

theorem getMIC_signed_seq (O : CryptoOracle) (n : NtlmProvider) (bs : List Nat)
    (hs : n.NegotiateFlags &&& NegotiateSign ≠ 0) :
    (GetMIC O n bs).1.SequenceNumber = (n.SequenceNumber + 1) % 4294967296 := by
  unfold GetMIC
  rw [if_neg hs]
  rfl

theorem getMIC_signed_sig (O : CryptoOracle) (n : NtlmProvider) (bs : List Nat)
    (hs : n.NegotiateFlags &&& NegotiateSign ≠ 0) :
    (GetMIC O n bs).2.drop 12 = le32enc n.SequenceNumber := by
  unfold GetMIC
  rw [if_neg hs]
  exact ntlmSign_record_seq O n.NegotiateFlags n.ClientHandle n.ClientSigningKey
    n.SequenceNumber bs

theorem getMIC_signed_length (O : CryptoOracle) (n : NtlmProvider) (bs : List Nat)
    (hs : n.NegotiateFlags &&& NegotiateSign ≠ 0) :
    (GetMIC O n bs).2.length = 16 := by
  unfold GetMIC
  rw [if_neg hs]
  exact ntlmSign_record_length O n.NegotiateFlags n.ClientHandle n.ClientSigningKey
    n.SequenceNumber bs

/-- Behaviour of an iterated run of `GetMIC` with signing negotiated and the
counter within its 32-bit range: the counter advances by one per call
(modulo `2^32`), one signature is emitted per message, and the `i`-th
signature embeds sequence number `(start + i) % 2^32` in its last four
bytes. -/
theorem runGetMICs_spec (O : CryptoOracle) (msgs : List (List Nat)) :
    ∀ n : NtlmProvider, n.NegotiateFlags &&& NegotiateSign ≠ 0 →
      n.SequenceNumber < 4294967296 →
      (runGetMICs O n msgs).1.SequenceNumber =
          (n.SequenceNumber + msgs.length) % 4294967296 ∧
      (runGetMICs O n msgs).2.length = msgs.length ∧
      ∀ i, i < msgs.length →
        ((runGetMICs O n msgs).2.getD i []).drop 12 =
          le32enc ((n.SequenceNumber + i) % 4294967296) := by
  induction msgs with
  | nil =>
    intro n hs hlt
    refine ⟨?_, rfl, ?_⟩
    · show n.SequenceNumber = (n.SequenceNumber + ([] : List (List Nat)).length) % 4294967296
      simp only [List.length_nil]
      omega
    · intro i hi
      exact absurd hi (by simp)
  | cons m ms ih =>
    intro n hs hlt
    have hs' : (GetMIC O n m).1.NegotiateFlags &&& NegotiateSign ≠ 0 := by
      rw [getMIC_flags_invariant]
      exact hs
    have hseq : (GetMIC O n m).1.SequenceNumber = (n.SequenceNumber + 1) % 4294967296 :=
      getMIC_signed_seq O n m hs
    have hlt' : (GetMIC O n m).1.SequenceNumber < 4294967296 := by
      rw [hseq]
      omega
    obtain ⟨ih1, ih2, ih3⟩ := ih (GetMIC O n m).1 hs' hlt'
    refine ⟨?_, ?_, ?_⟩
    · simp only [runGetMICs]
      rw [ih1, hseq]
      simp only [List.length_cons]
      omega
    · simp only [runGetMICs, List.length_cons, ih2]
    · intro i hi
      cases i with
      | zero =>
        simp only [runGetMICs, List.getD_cons_zero]
        rw [getMIC_signed_sig O n m hs]
        congr 1
        omega
      | succ j =>
        simp only [runGetMICs, List.getD_cons_succ]
        rw [ih3 j (by simp only [List.length_cons] at hi; omega)]
        rw [hseq]
        congr 1
        omega

end Signing

/-- Claim C6 (amended): `GetMIC` can never fail — the code has no error
outcome and no state check — so calling it before a successful
`AcceptSecContext` does not raise a sequence error: with `NegotiateSign`
clear it returns the empty signature without touching the session, and with
`NegotiateSign` set it returns a full 16-byte signature record computed
from the current (possibly never-derived) signing state. -/
theorem getMIC_total_before_authentication (O : CryptoOracle) (n : NtlmProvider)
    (bs : List Nat) :
    (n.NegotiateFlags &&& NegotiateSign = 0 → GetMIC O n bs = (n, [])) ∧
    (n.NegotiateFlags &&& NegotiateSign ≠ 0 → (GetMIC O n bs).2.length = 16) := by
  constructor
  · intro h
    unfold GetMIC
    rw [if_pos h]
  · intro h
    exact getMIC_signed_length O n bs h

/-- Witness for `getMIC_total_before_authentication` on a session that has
only produced a NEGOTIATE message. -/
theorem getMIC_total_before_authentication_witness :
    (GetMIC dummyOracle
        (InitSecContext { NegotiateFlags := NegotiateSign : NtlmProvider }).1
        [1, 2, 3]).2.length = 16 :=
  (getMIC_total_before_authentication dummyOracle
    (InitSecContext { NegotiateFlags := NegotiateSign : NtlmProvider }).1 [1, 2, 3]).2
    (by decide)

/-- Claim C6, counterexample to the claim as stated: on a concrete session
that has produced its NEGOTIATE message but has not run `AcceptSecContext`
(signing negotiated, no keys derived), `GetMIC` returns a 16-byte signature
record rather than failing with a sequence error — the code has no failure
path at all. -/
theorem getMIC_before_accept_returns_signature :
    (GetMIC dummyOracle
        (InitSecContext { NegotiateFlags := NegotiateSign : NtlmProvider }).1
        [1, 2, 3]).2 ≠ [] ∧
    (GetMIC dummyOracle
        (InitSecContext { NegotiateFlags := NegotiateSign : NtlmProvider }).1
        [1, 2, 3]).2.length = 16 := by
  decide

/-- Claim C7 (amended): within the first `2^32` calls, signatures produced
by successive `GetMIC` calls of a signing session started at sequence 0
embed the sequence numbers 0, 1, 2, … with no gaps or repeats, and the
32-bit counter always equals the number of calls modulo `2^32`. -/
theorem getMIC_sequence_numbers (O : CryptoOracle) (n : NtlmProvider)
    (msgs : List (List Nat)) (hs : n.NegotiateFlags &&& NegotiateSign ≠ 0)
    (h0 : n.SequenceNumber = 0) (i : Nat) (hi : i < msgs.length)
    (hlt : i < 4294967296) :
    ((runGetMICs O n msgs).2.getD i []).drop 12 = le32enc i ∧
    (runGetMICs O n msgs).1.SequenceNumber = msgs.length % 4294967296 := by
  obtain ⟨h1, h2, h3⟩ := runGetMICs_spec O msgs n hs (by rw [h0]; omega)
  constructor
  · rw [h3 i hi, h0]
    congr 1
    omega
  · rw [h1, h0, Nat.zero_add]

/-- Witness for `getMIC_sequence_numbers`: two signed messages, second
signature embeds sequence number 1. -/
theorem getMIC_sequence_numbers_witness :
    ({ NegotiateFlags := NegotiateSign : NtlmProvider }).NegotiateFlags &&&
        NegotiateSign ≠ 0 ∧
    ({ NegotiateFlags := NegotiateSign : NtlmProvider }).SequenceNumber = 0 ∧
    (1 : Nat) < ([[1], [2]] : List (List Nat)).length ∧
    (1 : Nat) < 4294967296 ∧
    (((runGetMICs dummyOracle { NegotiateFlags := NegotiateSign : NtlmProvider }
          [[1], [2]]).2.getD 1 []).drop 12 = le32enc 1 ∧
      (runGetMICs dummyOracle { NegotiateFlags := NegotiateSign : NtlmProvider }
          [[1], [2]]).1.SequenceNumber =
        ([[1], [2]] : List (List Nat)).length % 4294967296) :=
  ⟨by decide, by decide, by decide, by decide,
    getMIC_sequence_numbers dummyOracle { NegotiateFlags := NegotiateSign : NtlmProvider }
      [[1], [2]] (by decide) (by decide) 1 (by decide) (by decide)⟩

/-- Claim C7, counterexample to the claim as stated: the sequence counter
is 32 bits wide, so on the call with index `2^32` it has wrapped back to 0
and the embedded sequence number repeats that of the very first call —
sequence numbers do repeat once a session issues more than `2^32`
signatures. -/
theorem getMIC_sequence_number_repeats :
    ((runGetMICs dummyOracle { NegotiateFlags := NegotiateSign : NtlmProvider }
        (List.replicate 4294967297 [])).2.getD 4294967296 []).drop 12 =
    ((runGetMICs dummyOracle { NegotiateFlags := NegotiateSign : NtlmProvider }
        (List.replicate 4294967297 [])).2.getD 0 []).drop 12 := by
  obtain ⟨h1, h2, h3⟩ := runGetMICs_spec dummyOracle (List.replicate 4294967297 [])
    { NegotiateFlags := NegotiateSign : NtlmProvider } (by decide) (by decide)
  rw [h3 4294967296 (by rw [List.length_replicate]; omega),
    h3 0 (by rw [List.length_replicate]; omega)]
  norm_num

end Spnego
